import Mathlib

/-!
Verification of `fibonacid/ableton-live-assistant` (`src/index.mjs`).

The repository is a small Node script with two parts:
- an OSC control-surface bridge (`sendMessage`, `waitForMessage`, `getTempo`,
  `setTempo`) talking to AbletonOSC over UDP, and
- an OpenAI function-calling dispatcher (`main`) that forwards tool calls
  selected by the model to those bridge functions.

This file gives a shallow embedding of that script: the bridge is a state
machine (packets sent, registered listeners, promise cells), the dispatcher is
a function from the environment (completion responses, inbound packets) to a
result, and JavaScript runtime faults are explicit error values.
-/

namespace Ableton

/-- JavaScript values as produced by `JSON.parse` and passed around by the
dispatcher. Integer-valued numbers are `num`; non-integer numbers are `dec m e`
with `e < 0`, standing for the exact decimal value `m * 10^e` (a stand-in for
the JavaScript double, exact on every number this program meets). -/
inductive JValue where
  | null : JValue
  | bool : Bool → JValue
  | num : Int → JValue
  | dec : Int → Int → JValue
  | str : String → JValue
  | arr : List JValue → JValue
  | obj : List (String × JValue) → JValue

/-- The opening-brace character, written via its code point. -/
def lbrace : Char := Char.ofNat 123

/-- The closing-brace character, written via its code point. -/
def rbrace : Char := Char.ofNat 125

/-- Skip JSON whitespace. -/
def skipWs : List Char → List Char
  | [] => []
  | c :: cs => if c = ' ' ∨ c = '\t' ∨ c = '\n' ∨ c = '\r' then skipWs cs else c :: cs

/-- Split a leading run of decimal digits off a character list. -/
def takeDigits : List Char → List Char × List Char
  | [] => ([], [])
  | c :: cs =>
    if c.isDigit then
      let r := takeDigits cs
      (c :: r.1, r.2)
    else ([], c :: cs)

/-- Numeric value of a digit run. -/
def digitsVal (ds : List Char) : Nat :=
  ds.foldl (fun n c => n * 10 + (c.toNat - 48)) 0

/-- JSON single-character string escapes: `n`, `t`, `r`, `b`, `f` map to
their control characters, and quote, backslash and slash map to themselves
(`u` is handled separately). -/
def escChar (e : Char) : Option Char :=
  if e = 'n' then some '\n'
  else if e = 't' then some '\t'
  else if e = 'r' then some '\r'
  else if e = 'b' then some (Char.ofNat 8)
  else if e = 'f' then some (Char.ofNat 12)
  else if e = '"' ∨ e = '\\' ∨ e = '/' then some e
  else none

/-- Value of one hexadecimal digit. -/
def hexDigit (c : Char) : Option Nat :=
  if c.isDigit then some (c.toNat - 48)
  else if 'a' ≤ c ∧ c ≤ 'f' then some (c.toNat - 87)
  else if 'A' ≤ c ∧ c ≤ 'F' then some (c.toNat - 55)
  else none

/-- Parse the remainder of a JSON string literal (after the opening quote),
returning the decoded string and the rest of the input. As in `JSON.parse`,
an unescaped control character (code point below 32) is an error, and
`\uXXXX` escapes are decoded by code point (a lone surrogate is accepted, as
`JSON.parse` accepts it; its stand-in character is irrelevant to the claims). -/
def parseStrRest : Nat → List Char → Option (String × List Char)
  | 0, _ => none
  | _, [] => none
  | fuel + 1, c :: cs =>
    if c = '"' then some ("", cs)
    else if c.toNat < 32 then none
    else if c = '\\' then
      match cs with
      | [] => none
      | e :: cs2 =>
        if e = 'u' then
          match cs2 with
          | h1 :: h2 :: h3 :: h4 :: cs3 =>
            match hexDigit h1, hexDigit h2, hexDigit h3, hexDigit h4 with
            | some a, some b, some c2, some d =>
              match parseStrRest fuel cs3 with
              | none => none
              | some (s, rest) =>
                some (String.mk
                  (Char.ofNat (((a * 16 + b) * 16 + c2) * 16 + d) :: s.data), rest)
            | _, _, _, _ => none
          | _ => none
        else
          match escChar e with
          | none => none
          | some d =>
            match parseStrRest fuel cs2 with
            | none => none
            | some (s, rest) => some (String.mk (d :: s.data), rest)
    else
      match parseStrRest fuel cs with
      | none => none
      | some (s, rest) => some (String.mk (c :: s.data), rest)

/-- `10 ^ n`. -/
def pow10 : Nat → Nat
  | 0 => 1
  | n + 1 => 10 * pow10 n

/-- The integer part of a JSON number: `0`, or a nonzero digit followed by
digits — a leading zero never continues with further digits (`JSON.parse`
rejects `01`). -/
def parseIntDigits (cs : List Char) : Option (List Char × List Char) :=
  match cs with
  | [] => none
  | c :: r =>
    if c = '0' then some (['0'], r)
    else if c.isDigit then some (takeDigits (c :: r))
    else none

/-- The optional fraction part: absent, or a dot followed by at least one
digit (`5.` is an error). Returns the fraction digits. -/
def parseFracDigits (cs : List Char) : Option (List Char × List Char) :=
  match cs with
  | '.' :: r =>
    let t := takeDigits r
    if t.1.isEmpty then none else some t
  | _ => some ([], cs)

/-- The optional exponent part: absent, or `e`/`E`, an optional sign, and at
least one digit (`1e` is an error). Returns the sign (true = negative) and
the exponent digits. -/
def parseExpDigits (cs : List Char) : Option (Bool × List Char × List Char) :=
  match cs with
  | [] => some (false, [], [])
  | c :: r =>
    if c = 'e' ∨ c = 'E' then
      match r with
      | '+' :: r2 =>
        let t := takeDigits r2
        if t.1.isEmpty then none else some (false, t.1, t.2)
      | '-' :: r2 =>
        let t := takeDigits r2
        if t.1.isEmpty then none else some (true, t.1, t.2)
      | r2 =>
        let t := takeDigits r2
        if t.1.isEmpty then none else some (false, t.1, t.2)
    else some (false, [], c :: r)

/-- Strip factors of ten from the mantissa while the exponent is negative,
so that an integer-valued number is recognised as one (`2.0` is the integer
`2`, `100e-2` is `1`). Fuel-bounded by the digit count. -/
def normNum : Nat → Int → Int → Int × Int
  | 0, m, e => (m, e)
  | f + 1, m, e =>
    if e < 0 ∧ m % 10 = 0 ∧ m ≠ 0 then normNum f (m / 10) (e + 1) else (m, e)

/-- Assemble the value of a parsed JSON number from its sign, integer digits,
fraction digits and exponent: integer values become `JValue.num`, non-integer
values `JValue.dec` (exact decimal; negative zero is the integer `0`). -/
def mkNumber (sign : Bool) (intDs fracDs : List Char) (expSign : Bool)
    (expDs : List Char) : JValue :=
  let m0 : Nat := digitsVal (intDs ++ fracDs)
  if m0 = 0 then JValue.num 0
  else
    let e0 : Int :=
      (if expSign then -(digitsVal expDs : Int) else (digitsVal expDs : Int)) -
        (fracDs.length : Int)
    let m1 : Int := if sign then -(m0 : Int) else (m0 : Int)
    let r := normNum (intDs.length + fracDs.length) m1 e0
    if r.2 < 0 then JValue.dec r.1 r.2
    else JValue.num (r.1 * (pow10 r.2.toNat : Int))

/-- Parse one JSON number (RFC 8259 grammar: optional minus, integer part
without leading zeros, optional fraction, optional exponent). -/
def parseNumber (cs : List Char) : Option (JValue × List Char) :=
  let sr : Bool × List Char :=
    match cs with
    | '-' :: r => (true, r)
    | other => (false, other)
  match parseIntDigits sr.2 with
  | none => none
  | some (intDs, cs2) =>
    match parseFracDigits cs2 with
    | none => none
    | some (fracDs, cs3) =>
      match parseExpDigits cs3 with
      | none => none
      | some (esign, expDs, cs4) => some (mkNumber sr.1 intDs fracDs esign expDs, cs4)

mutual

/-- Parse one JSON value. Fueled recursive descent; the fuel bounds nesting
depth and is in practice never exhausted for inputs no longer than the fuel. -/
def parseVal : Nat → List Char → Option (JValue × List Char)
  | 0, _ => none
  | fuel + 1, cs =>
    match skipWs cs with
    | [] => none
    | c :: rest =>
      if c = 'n' then
        match rest with
        | 'u' :: 'l' :: 'l' :: rest2 => some (JValue.null, rest2)
        | _ => none
      else if c = 't' then
        match rest with
        | 'r' :: 'u' :: 'e' :: rest2 => some (JValue.bool true, rest2)
        | _ => none
      else if c = 'f' then
        match rest with
        | 'a' :: 'l' :: 's' :: 'e' :: rest2 => some (JValue.bool false, rest2)
        | _ => none
      else if c = '"' then
        match parseStrRest (rest.length + 1) rest with
        | none => none
        | some (s, rest2) => some (JValue.str s, rest2)
      else if c = '-' ∨ c.isDigit then
        parseNumber (c :: rest)
      else if c = '[' then
        match skipWs rest with
        | ']' :: rest2 => some (JValue.arr [], rest2)
        | rest2 =>
          match parseItems fuel rest2 with
          | none => none
          | some (items, rest3) => some (JValue.arr items, rest3)
      else if c = lbrace then
        match skipWs rest with
        | [] => none
        | d :: rest2 =>
          if d = rbrace then some (JValue.obj [], rest2)
          else
            match parseMembers fuel (d :: rest2) with
            | none => none
            | some (mems, rest3) => some (JValue.obj mems, rest3)
      else none

/-- Parse the comma-separated items of a JSON array (after the opening
bracket), including the closing bracket. -/
def parseItems : Nat → List Char → Option (List JValue × List Char)
  | 0, _ => none
  | fuel + 1, cs =>
    match parseVal fuel cs with
    | none => none
    | some (v, rest) =>
      match skipWs rest with
      | ',' :: rest2 =>
        match parseItems fuel rest2 with
        | none => none
        | some (vs, rest3) => some (v :: vs, rest3)
      | ']' :: rest2 => some ([v], rest2)
      | _ => none

/-- Parse the comma-separated members of a JSON object (after the opening
brace), including the closing brace. -/
def parseMembers : Nat → List Char → Option (List (String × JValue) × List Char)
  | 0, _ => none
  | fuel + 1, cs =>
    match skipWs cs with
    | '"' :: rest =>
      match parseStrRest (rest.length + 1) rest with
      | none => none
      | some (key, rest2) =>
        match skipWs rest2 with
        | ':' :: rest3 =>
          match parseVal fuel rest3 with
          | none => none
          | some (v, rest4) =>
            match skipWs rest4 with
            | ',' :: rest5 =>
              match parseMembers fuel rest5 with
              | none => none
              | some (ms, rest6) => some ((key, v) :: ms, rest6)
            | d :: rest5 => if d = rbrace then some ([(key, v)], rest5) else none
            | [] => none
        | _ => none
    | _ => none

end

/-- Executable model of the JavaScript builtin `JSON.parse` used by the
dispatcher (`JSON.parse(toolCall.function.arguments)`): `none` models a thrown
`SyntaxError`, `some v` a successful parse. It follows the RFC 8259 grammar
that `JSON.parse` implements: full number syntax (fraction and exponent,
no leading zeros), strings with escapes (including `\uXXXX`) and without raw
control characters, arrays, objects, literals, and no trailing input. Number
values are kept as exact decimals rather than binary doubles, and duplicate
object keys are kept as a pair list; neither affects the accept/reject
boundary the dispatcher theorems depend on. -/
def jsonParse (s : String) : Option JValue :=
  match parseVal (s.length + 1) s.data with
  | none => none
  | some (v, rest) =>
    match skipWs rest with
    | [] => some v
    | _ => none

/-- An outbound OSC packet, as handed by `sendMessage` to
`osc.send(new OSC.Message(address, ...args), { port, host })`: the message
(address plus argument list) together with the destination peer. -/
structure Packet where
  address : String
  args : List JValue
  host : String
  port : Nat

/-- An inbound OSC message, as delivered by the `osc-js` plugin to the
listeners registered with `osc.on(address, callback)`. -/
structure InPacket where
  address : String
  args : List JValue

/-- State of the `osc` bridge object:
- `sent`: packets written so far (in order);
- `listeners`: the listeners registered with `osc.on`, in registration order,
  each recorded as its address together with the promise cell its callback
  resolves;
- `promises`: the promise cells allocated by `waitForMessage`, indexed by
  allocation order; `none` is a pending promise, `some m` one settled with
  message `m`. -/
structure BridgeState where
  sent : List Packet
  listeners : List (String × Nat)
  promises : List (Option InPacket)

/-- The bridge state at `osc.open`: nothing sent, no listeners, no promises. -/
def emptyBridge : BridgeState := ⟨[], [], []⟩

/-- `sendMessage(address, ...args)` from src/index.mjs: write one packet to
the fixed peer `127.0.0.1:11000` (the AbletonOSC port), without registering
any listener or touching any promise. -/
def sendMessage (s : BridgeState) (address : String) (args : List JValue) : BridgeState :=
  { s with sent := s.sent ++ [{ address := address, args := args, host := "127.0.0.1", port := 11000 }] }

/-- `waitForMessage(address)` from src/index.mjs: create a fresh pending
promise and register one listener (`osc.on(address, resolve)`) whose callback
resolves it; return the new state and the promise. The listener is never
deregistered. -/
def waitForMessage (s : BridgeState) (address : String) : BridgeState × Nat :=
  (⟨s.sent, s.listeners ++ [(address, s.promises.length)], s.promises ++ [none]⟩,
   s.promises.length)

/-- Reading a promise cell: `none` while pending, `some m` once settled. -/
def promiseValue (s : BridgeState) (pid : Nat) : Option InPacket :=
  s.promises.getD pid none

/-- JavaScript promise resolution: the first `resolve(message)` settles the
promise; resolving an already-settled promise is a no-op. -/
def resolvePromise (ps : List (Option InPacket)) (pid : Nat) (m : InPacket) :
    List (Option InPacket) :=
  match ps.getD pid none with
  | some _ => ps
  | none => ps.set pid (some m)

/-- The `osc-js` event dispatch for one inbound message: invoke the callback
of every listener registered on the message address, in registration order.
Each callback is a `resolve` of its promise cell. -/
def notifyAll (ls : List (String × Nat)) (p : InPacket) (ps : List (Option InPacket)) :
    List (Option InPacket) :=
  ls.foldl (fun acc l => if l.1 = p.address then resolvePromise acc l.2 p else acc) ps

/-- Delivery of one inbound packet to the bridge: listeners are notified,
the listener list itself is unchanged. -/
def deliver (s : BridgeState) (p : InPacket) : BridgeState :=
  { s with promises := notifyAll s.listeners p s.promises }

/-- Delivery of a sequence of inbound packets, in arrival order. -/
def deliverAll (s : BridgeState) (ps : List InPacket) : BridgeState :=
  ps.foldl deliver s

/-- `await` on the promise returned by `waitForMessage`: inbound packets from
the environment are delivered one at a time until the promise settles, at
which point execution resumes with the settled message and the remaining
(not yet delivered) packets. `none` models an await that never returns
because the environment sends no settling packet (no timeout exists). -/
def runUntilSettled (s : BridgeState) (pid : Nat) :
    List InPacket → Option (BridgeState × List InPacket × InPacket)
  | [] =>
    match promiseValue s pid with
    | some m => some (s, [], m)
    | none => none
  | p :: rest =>
    match promiseValue s pid with
    | some m => some (s, p :: rest, m)
    | none => runUntilSettled (deliver s p) pid rest

/-- `getTempo()` from src/index.mjs: send to the get-tempo address, then wait
for a message on the same address. The returned promise cell stands for the
`message` the source returns once the await completes. -/
def getTempo (s : BridgeState) : BridgeState × Nat :=
  let address := "/live/song/get/tempo"
  let s1 := sendMessage s address []
  waitForMessage s1 address

/-- `setTempo(bmp)` from src/index.mjs: send `bmp` (the single argument, used
exactly as received) to the set-tempo address, then wait for a message on the
same address. -/
def setTempo (s : BridgeState) (bmp : JValue) : BridgeState × Nat :=
  let address := "/live/song/set/tempo"
  let s1 := sendMessage s address [bmp]
  waitForMessage s1 address

/-- Conversation roles. -/
inductive Role where
  | system : Role
  | user : Role
  | assistant : Role
  | tool : Role
deriving DecidableEq, Repr

/-- `toolCall.function`: the function name and its string-encoded JSON
arguments, as they appear in the completion response. -/
structure ToolFunction where
  name : String
  arguments : String
deriving DecidableEq, Repr

/-- One tool call from the completion response: its correlation id and the
requested function. -/
structure ToolCall where
  id : String
  function : ToolFunction
deriving DecidableEq, Repr

/-- A record of the conversation transcript (the `messages` array). Absent
JavaScript fields are `none`. -/
structure ChatMessage where
  role : Role
  content : Option String
  tool_calls : Option (List ToolCall)
  name : Option String
  tool_call_id : Option String
deriving DecidableEq, Repr

/-- `functionResponse.toString()`: the received value is an `osc-js` message
object, whose default stringification this models. The exact string is
irrelevant to the claims, which only relate the stored record content to this
stringification of the result. -/
def msgToString (_ : InPacket) : String := "[object Object]"

/-- The `availableFunctions` lookup table from `main`:
`{ get_song_tempo: getTempo, set_song_tempo: setTempo }`. A name that is not
a key yields `none` (JavaScript `undefined`). Each entry takes the bridge
state and the parsed `functionArgs` the dispatcher passes: `getTempo` ignores
its argument (the source declares it with no parameters), `setTempo` uses it
as `bmp`. -/
def availableFunctions (name : String) :
    Option (BridgeState → JValue → BridgeState × Nat) :=
  if name = "get_song_tempo" then some (fun s _ => getTempo s)
  else if name = "set_song_tempo" then some (fun s bmp => setTempo s bmp)
  else none

/-- JavaScript runtime faults the script can raise; all are unhandled and
terminate the process. -/
inductive JsError where
  | missingCredential : JsError
  | jsonParseError : JsError
  | notAFunction : JsError
deriving DecidableEq, Repr

/-- Outcome of running a piece of the script: normal completion, an unhandled
runtime fault, or an await that never returns. -/
inductive ExecResult (α : Type) where
  | ok : α → ExecResult α
  | fault : JsError → ExecResult α
  | blocked : ExecResult α

/-- Modelled from the spec: the hosted completion request performed through
the third-party `openai` client (not part of src/). The spec requires that a
missing credential (empty or absent API key) cause the request to fail rather
than silently succeed; with a credential present the response chosen by the
environment is returned. -/
def chatCompletionsCreate {α : Type} (apiKey : Option String) (response : α) :
    ExecResult α :=
  match apiKey with
  | none => .fault .missingCredential
  | some k => if k = "" then .fault .missingCredential else .ok response

/-- The hardcoded initial transcript of `main`: the system prompt and the
user request. -/
def initialMessages : List ChatMessage :=
  [{ role := .system,
     content := some "You are a smart Ableton Live controller. You receive commands in natural language and use tools to interact with the Live set.",
     tool_calls := none, name := none, tool_call_id := none },
   { role := .user, content := some "Hello, what\x27s the song tempo?",
     tool_calls := none, name := none, tool_call_id := none }]

/-- One declared tool of the manifest sent with the first completion request:
name, description, and the declared parameter names with their JSON-schema
types (empty when the tool declares no parameters). -/
structure ToolSpec where
  name : String
  description : String
  params : List (String × String)
  required : List String
deriving DecidableEq, Repr

/-- The tool manifest from `main`: `get_song_tempo` with no parameters and
`set_song_tempo` with a required numeric `bpm`. -/
def toolManifest : List ToolSpec :=
  [{ name := "get_song_tempo", description := "Get the tempo of the current song",
     params := [], required := [] },
   { name := "set_song_tempo", description := "Set the tempo of the current song",
     params := [("bpm", "number")], required := ["bpm"] }]

/-- One iteration of the dispatcher loop in `main` for tool call `tc`, from
bridge state `s` with the inbound packets `env` still to arrive:
look up `functionName` in `availableFunctions`, `JSON.parse` the arguments
(a parse failure is a thrown `SyntaxError`), call the function (calling the
`undefined` result of a failed lookup is a `TypeError`; JavaScript evaluates
the `JSON.parse` in the call line before the call itself, so a parse error
wins over an unknown name), await its result, and build the tool record that
`main` pushes onto the transcript. -/
def execToolCall (s : BridgeState) (env : List InPacket) (tc : ToolCall) :
    ExecResult (BridgeState × List InPacket × ChatMessage) :=
  let functionName := tc.function.name
  let functionToCall := availableFunctions functionName
  match jsonParse tc.function.arguments with
  | none => .fault .jsonParseError
  | some functionArgs =>
    match functionToCall with
    | none => .fault .notAFunction
    | some f =>
      let r := f s functionArgs
      match runUntilSettled r.1 r.2 env with
      | none => .blocked
      | some (s2, env2, functionResponse) =>
        .ok (s2, env2,
          { role := .tool, content := some (msgToString functionResponse),
            tool_calls := none, name := some functionName,
            tool_call_id := some tc.id })

/-- The `for (const toolCall of toolCalls)` loop of `main`: run each tool
call in order, appending its record to the transcript. -/
def runToolCalls (s : BridgeState) (env : List InPacket) (msgs : List ChatMessage) :
    List ToolCall → ExecResult (BridgeState × List InPacket × List ChatMessage)
  | [] => .ok (s, env, msgs)
  | tc :: rest =>
    match execToolCall s env tc with
    | .fault e => .fault e
    | .blocked => .blocked
    | .ok (s1, env1, m) => runToolCalls s1 env1 (msgs ++ [m]) rest

/-- The environment of one process run: the credential from `process.env`,
the message of the first completion response (`completion.choices[0]?.message`,
`none` when absent), the message of the second completion response, and the
inbound OSC packets in arrival order. -/
structure Env where
  apiKey : Option String
  firstResponse : Option ChatMessage
  secondResponse : ChatMessage
  inbound : List InPacket

/-- Observable outcome of a completed run of `main`: the final transcript,
the lines printed with `console.log`, and the final bridge state. -/
structure MainResult where
  messages : List ChatMessage
  output : List (Option String)
  bridge : BridgeState

/-- `main()` from src/index.mjs: request the first completion; if its message
carries a `tool_calls` field (JavaScript truthiness: any array, even empty),
push the response message, run every tool call, request the second completion
and print its content; otherwise do nothing — in particular nothing is
printed. -/
def main (e : Env) (s0 : BridgeState) : ExecResult MainResult :=
  match chatCompletionsCreate e.apiKey e.firstResponse with
  | .fault er => .fault er
  | .blocked => .blocked
  | .ok responseMessage =>
    match responseMessage with
    | none => .ok { messages := initialMessages, output := [], bridge := s0 }
    | some rm =>
      match rm.tool_calls with
      | none => .ok { messages := initialMessages, output := [], bridge := s0 }
      | some toolCalls =>
        match runToolCalls s0 e.inbound (initialMessages ++ [rm]) toolCalls with
        | .fault er => .fault er
        | .blocked => .blocked
        | .ok (s1, _, msgs2) =>
          match chatCompletionsCreate e.apiKey e.secondResponse with
          | .fault er => .fault er
          | .blocked => .blocked
          | .ok sr => .ok { messages := msgs2, output := [sr.content], bridge := s1 }

/-- The packets sent by a finished dispatcher iteration (empty when the
iteration faulted or blocked). -/
def sentAfterTool (r : ExecResult (BridgeState × List InPacket × ChatMessage)) :
    List Packet :=
  match r with
  | .ok (s, _, _) => s.sent
  | _ => []

/-- The operations the script ever performs on the bridge object, for
stating invariants over arbitrary call sequences. -/
inductive BridgeOp where
  | send : String → List JValue → BridgeOp
  | wait : String → BridgeOp
  | getT : BridgeOp
  | setT : JValue → BridgeOp
  | recv : InPacket → BridgeOp

/-- Apply one bridge operation to the state. -/
def applyOp (s : BridgeState) : BridgeOp → BridgeState
  | .send a args => sendMessage s a args
  | .wait a => (waitForMessage s a).1
  | .getT => (getTempo s).1
  | .setT b => (setTempo s b).1
  | .recv p => deliver s p

/-- Apply a sequence of bridge operations in order. -/
def runOps (s : BridgeState) (ops : List BridgeOp) : BridgeState :=
  ops.foldl applyOp s

/-- The state of an in-flight `waitForMessage(a)` whose promise `pid` is the
pending one it returned: the promise is pending and in range, its listener is
registered, and every listener wired to it listens on `a`. -/
def Waiting (t : BridgeState) (a : String) (pid : Nat) : Prop :=
  promiseValue t pid = none ∧ pid < t.promises.length ∧
  (a, pid) ∈ t.listeners ∧ ∀ l ∈ t.listeners, l.2 = pid → l.1 = a

/-! ### Concrete test data used by witnesses and counterexamples -/

/-- A first completion response with text content and no `tool_calls` field. -/
def c1Response : ChatMessage :=
  { role := .assistant, content := some "The tempo is 120 BPM.",
    tool_calls := none, name := none, tool_call_id := none }

/-- A second completion response (never requested in the C1 scenario). -/
def c1Second : ChatMessage :=
  { role := .assistant, content := some "done",
    tool_calls := none, name := none, tool_call_id := none }

/-- Environment for the no-tool-call scenario. -/
def c1Env : Env :=
  { apiKey := some "sk-test", firstResponse := some c1Response,
    secondResponse := c1Second, inbound := [] }

/-- The `set_song_tempo` tool call of the C2 scenario, with argument payload
`bpm: 120`. -/
def c2Call : ToolCall :=
  { id := "call_1",
    function := { name := "set_song_tempo", arguments := "\x7b\"bpm\":120\x7d" } }

/-- The reply packet AbletonOSC sends on the set-tempo address. -/
def c2Reply : InPacket := { address := "/live/song/set/tempo", args := [JValue.num 120] }

/-- First reply packet on the get-tempo address. -/
def c3First : InPacket := { address := "/live/song/get/tempo", args := [JValue.num 120] }

/-- A second, later packet on the same address. -/
def c3Second : InPacket := { address := "/live/song/get/tempo", args := [JValue.num 99] }

/-- A packet arriving after the promise has settled. -/
def c3Late : InPacket := { address := "/live/song/get/tempo", args := [JValue.num 42] }

/-- A packet on an unrelated address. -/
def c4Other : InPacket := { address := "/live/song/get/volume", args := [JValue.num 1] }

/-- A tool call whose function name is not in the local mapping. -/
def c5Call : ToolCall :=
  { id := "call_9", function := { name := "frobnicate", arguments := "\x7b\x7d" } }

/-- A `get_song_tempo` tool call with empty-object arguments. -/
def c6Call : ToolCall :=
  { id := "call_abc", function := { name := "get_song_tempo", arguments := "\x7b\x7d" } }

/-- The reply packet of the C6 scenario. -/
def c6Reply : InPacket := { address := "/live/song/get/tempo", args := [JValue.num 120] }

/-- The bridge state after the C6 scenario: one packet sent to the get-tempo
address, one listener registered, its promise settled with the reply. -/
def c6Bridge : BridgeState :=
  ⟨[{ address := "/live/song/get/tempo", args := [], host := "127.0.0.1", port := 11000 }],
   [("/live/song/get/tempo", 0)], [some c6Reply]⟩

/-- The assistant response of the C7 scenario, requesting one tool call. -/
def c7Response : ChatMessage :=
  { role := .assistant, content := none, tool_calls := some [c6Call],
    name := none, tool_call_id := none }

/-- Environment for the C7 scenario: one `get_song_tempo` call, one reply. -/
def c7Env : Env :=
  { apiKey := some "sk-test", firstResponse := some c7Response,
    secondResponse := c1Second, inbound := [c6Reply] }

/-- The tool record `main` appends in the C7 scenario. -/
def c7Record : ChatMessage :=
  { role := .tool, content := some "[object Object]", tool_calls := none,
    name := some "get_song_tempo", tool_call_id := some "call_abc" }

/-- The completed run of the C7 scenario. -/
def c7Result : MainResult :=
  { messages := initialMessages ++ [c7Response, c7Record],
    output := [some "done"], bridge := c6Bridge }

/-- Environment for the missing-credential scenario. -/
def c8Env : Env :=
  { apiKey := none, firstResponse := some c1Response,
    secondResponse := c1Second, inbound := [] }

/-! ### Helper lemmas about the bridge -/

theorem notifyAll_nil (p : InPacket) (ps : List (Option InPacket)) :
    notifyAll [] p ps = ps := rfl

theorem notifyAll_cons (l : String × Nat) (ls : List (String × Nat)) (p : InPacket)
    (ps : List (Option InPacket)) :
    notifyAll (l :: ls) p ps =
      notifyAll ls p (if l.1 = p.address then resolvePromise ps l.2 p else ps) := rfl

theorem length_resolvePromise (ps : List (Option InPacket)) (j : Nat) (q : InPacket) :
    (resolvePromise ps j q).length = ps.length := by
  unfold resolvePromise
  split <;> simp

theorem length_notifyAll (ls : List (String × Nat)) (p : InPacket)
    (ps : List (Option InPacket)) : (notifyAll ls p ps).length = ps.length := by
  induction ls generalizing ps with
  | nil => rfl
  | cons l ls ih =>
    rw [notifyAll_cons]
    split
    · rw [ih, length_resolvePromise]
    · exact ih ps

theorem resolvePromise_getD_ne (ps : List (Option InPacket)) (j i : Nat) (q : InPacket)
    (h : j ≠ i) : (resolvePromise ps j q).getD i none = ps.getD i none := by
  unfold resolvePromise
  split
  · rfl
  · simp [List.getD, List.getElem?_set_ne h]

theorem resolvePromise_getD_settled (ps : List (Option InPacket)) (j i : Nat)
    (q m : InPacket) (h : ps.getD i none = some m) :
    (resolvePromise ps j q).getD i none = some m := by
  by_cases hji : j = i
  · subst hji
    unfold resolvePromise
    rw [h]
    exact h
  · rw [resolvePromise_getD_ne ps j i q hji, h]

theorem resolvePromise_getD_self (ps : List (Option InPacket)) (i : Nat) (q : InPacket)
    (hlen : i < ps.length) (h : ps.getD i none = none) :
    (resolvePromise ps i q).getD i none = some q := by
  unfold resolvePromise
  rw [h]
  simp [List.getD, List.getElem?_set_self, hlen]

theorem notifyAll_getD_settled (ls : List (String × Nat)) (p : InPacket)
    (ps : List (Option InPacket)) (i : Nat) (m : InPacket)
    (h : ps.getD i none = some m) : (notifyAll ls p ps).getD i none = some m := by
  induction ls generalizing ps with
  | nil => exact h
  | cons l ls ih =>
    rw [notifyAll_cons]
    split
    · exact ih _ (resolvePromise_getD_settled ps l.2 i p m h)
    · exact ih ps h

theorem notifyAll_getD_no_listener (ls : List (String × Nat)) (p : InPacket)
    (ps : List (Option InPacket)) (i : Nat)
    (h : ∀ l ∈ ls, l.1 = p.address → l.2 ≠ i) :
    (notifyAll ls p ps).getD i none = ps.getD i none := by
  induction ls generalizing ps with
  | nil => rfl
  | cons l ls ih =>
    rw [notifyAll_cons]
    split
    · rename_i hl
      rw [ih _ fun x hx => h x (List.mem_cons_of_mem l hx),
        resolvePromise_getD_ne ps l.2 i p (h l (List.mem_cons_self l ls) hl)]
    · exact ih ps fun x hx => h x (List.mem_cons_of_mem l hx)

theorem notifyAll_getD_resolves (ls : List (String × Nat)) (p : InPacket)
    (ps : List (Option InPacket)) (i : Nat)
    (hlen : i < ps.length) (hmem : (p.address, i) ∈ ls)
    (hval : ps.getD i none = none ∨ ps.getD i none = some p) :
    (notifyAll ls p ps).getD i none = some p := by
  induction ls generalizing ps with
  | nil => cases hmem
  | cons l ls ih =>
    rw [notifyAll_cons]
    rcases List.mem_cons.1 hmem with hl | hl
    · subst hl
      simp only [if_pos rfl]
      have hset : (resolvePromise ps i p).getD i none = some p := by
        rcases hval with hv | hv
        · exact resolvePromise_getD_self ps i p hlen hv
        · exact resolvePromise_getD_settled ps i i p p hv
      exact notifyAll_getD_settled ls p _ i p hset
    · split
      · refine ih _ ?_ hl ?_
        · rw [length_resolvePromise]; exact hlen
        · by_cases hji : l.2 = i
          · subst hji
            rcases hval with hv | hv
            · exact Or.inr (resolvePromise_getD_self ps l.2 p hlen hv)
            · exact Or.inr (resolvePromise_getD_settled ps l.2 l.2 p p hv)
          · rw [resolvePromise_getD_ne ps l.2 i p hji]; exact hval
      · exact ih ps hlen hl hval

theorem listeners_deliver (t : BridgeState) (p : InPacket) :
    (deliver t p).listeners = t.listeners := rfl

theorem promiseValue_deliver_settled (t : BridgeState) (pid : Nat) (m : InPacket)
    (p : InPacket) (h : promiseValue t pid = some m) :
    promiseValue (deliver t p) pid = some m :=
  notifyAll_getD_settled t.listeners p t.promises pid m h

theorem promiseValue_deliverAll_settled (qs : List InPacket) (t : BridgeState)
    (pid : Nat) (m : InPacket) (h : promiseValue t pid = some m) :
    promiseValue (deliverAll t qs) pid = some m := by
  induction qs generalizing t with
  | nil => exact h
  | cons q qs ih => exact ih (deliver t q) (promiseValue_deliver_settled t pid m q h)

theorem promiseValue_deliver_other (t : BridgeState) (a : String) (pid : Nat)
    (p : InPacket) (hw : Waiting t a pid) (hpa : p.address ≠ a) :
    promiseValue (deliver t p) pid = none := by
  have h := notifyAll_getD_no_listener t.listeners p t.promises pid ?_
  · exact h.trans hw.1
  · intro l hl hla hli
    exact hpa ((hla.symm.trans (hw.2.2.2 l hl hli)))

theorem Waiting_deliver (t : BridgeState) (a : String) (pid : Nat) (p : InPacket)
    (hw : Waiting t a pid) (hpa : p.address ≠ a) : Waiting (deliver t p) a pid := by
  refine ⟨promiseValue_deliver_other t a pid p hw hpa, ?_, hw.2.2.1, hw.2.2.2⟩
  show pid < (notifyAll t.listeners p t.promises).length
  rw [length_notifyAll]
  exact hw.2.1

theorem promiseValue_deliver_match (t : BridgeState) (a : String) (pid : Nat)
    (p : InPacket) (hw : Waiting t a pid) (hpa : p.address = a) :
    promiseValue (deliver t p) pid = some p := by
  refine notifyAll_getD_resolves t.listeners p t.promises pid hw.2.1 ?_ (Or.inl hw.1)
  rw [hpa]
  exact hw.2.2.1

theorem promiseValue_deliverAll_find (t : BridgeState) (a : String) (pid : Nat)
    (ps : List InPacket) (hw : Waiting t a pid) :
    promiseValue (deliverAll t ps) pid = ps.find? (fun p => decide (p.address = a)) := by
  induction ps generalizing t with
  | nil => exact hw.1
  | cons p ps ih =>
    show promiseValue (deliverAll (deliver t p) ps) pid = _
    by_cases hpa : p.address = a
    · rw [List.find?_cons_of_pos _ (by simpa using hpa)]
      exact promiseValue_deliverAll_settled ps (deliver t p) pid p
        (promiseValue_deliver_match t a pid p hw hpa)
    · rw [List.find?_cons_of_neg _ (by simpa using hpa)]
      exact ih (deliver t p) (Waiting_deliver t a pid p hw hpa)

theorem runUntilSettled_of_settled (t : BridgeState) (pid : Nat) (m : InPacket)
    (ps : List InPacket) (h : promiseValue t pid = some m) :
    runUntilSettled t pid ps = some (t, ps, m) := by
  cases ps <;> simp [runUntilSettled, h]

theorem runUntilSettled_none_iff (t : BridgeState) (a : String) (pid : Nat)
    (ps : List InPacket) (hw : Waiting t a pid) :
    runUntilSettled t pid ps = none ↔ ∀ p ∈ ps, p.address ≠ a := by
  induction ps generalizing t with
  | nil => simp [runUntilSettled, hw.1]
  | cons p ps ih =>
    show (match promiseValue t pid with
      | some m => some (t, p :: ps, m)
      | none => runUntilSettled (deliver t p) pid ps) = none ↔ _
    rw [hw.1]
    by_cases hpa : p.address = a
    · rw [runUntilSettled_of_settled (deliver t p) pid p ps
        (promiseValue_deliver_match t a pid p hw hpa)]
      simp [hpa]
    · rw [ih (deliver t p) (Waiting_deliver t a pid p hw hpa)]
      simp [hpa]

theorem Waiting_waitForMessage (s : BridgeState) (a : String)
    (hwf : ∀ l ∈ s.listeners, l.2 < s.promises.length) :
    Waiting (waitForMessage s a).1 a (waitForMessage s a).2 := by
  refine ⟨?_, ?_, ?_, ?_⟩
  · show (s.promises ++ [none]).getD s.promises.length none = none
    simp [List.getD]
  · show s.promises.length < (s.promises ++ [none]).length
    simp
  · show (a, s.promises.length) ∈ s.listeners ++ [(a, s.promises.length)]
    simp
  · intro l hl hli
    rcases List.mem_append.1 hl with hin | hin
    · exact absurd hli (Nat.ne_of_lt (hwf l hin))
    · rw [List.mem_singleton.1 hin]

theorem listeners_sendMessage (s : BridgeState) (a : String) (args : List JValue) :
    (sendMessage s a args).listeners = s.listeners := rfl

theorem promises_sendMessage (s : BridgeState) (a : String) (args : List JValue) :
    (sendMessage s a args).promises = s.promises := rfl

theorem Waiting_getTempo (s : BridgeState)
    (hwf : ∀ l ∈ s.listeners, l.2 < s.promises.length) :
    Waiting (getTempo s).1 "/live/song/get/tempo" (getTempo s).2 :=
  Waiting_waitForMessage (sendMessage s "/live/song/get/tempo" []) _ hwf

theorem Waiting_setTempo (s : BridgeState) (b : JValue)
    (hwf : ∀ l ∈ s.listeners, l.2 < s.promises.length) :
    Waiting (setTempo s b).1 "/live/song/set/tempo" (setTempo s b).2 :=
  Waiting_waitForMessage (sendMessage s "/live/song/set/tempo" [b]) _ hwf

/-! ### Helper lemmas about the dispatcher -/

theorem bool_eq_of_iff {x y : Bool} (h : x = true ↔ y = true) : x = y := by
  cases x with
  | true => exact (h.mp rfl).symm
  | false =>
    cases y with
    | true => exact absurd (h.mpr rfl) (by simp)
    | false => rfl

theorem availableFunctions_not_found (n : String) (h1 : n ≠ "get_song_tempo")
    (h2 : n ≠ "set_song_tempo") : availableFunctions n = none := by
  simp [availableFunctions, h1, h2]

theorem take_trans {α : Type} {l1 l2 l3 : List α} (h1 : l2.take l1.length = l1)
    (h2 : l3.take l2.length = l2) : l3.take l1.length = l1 := by
  have hlen := congrArg List.length h1
  rw [List.length_take] at hlen
  have hle : l1.length ≤ l2.length := by omega
  have h3 : (l3.take l2.length).take l1.length = l3.take l1.length := by
    rw [List.take_take, Nat.min_eq_left hle]
  rw [← h3, h2, h1]

theorem runToolCalls_take (tcs : List ToolCall) :
    ∀ s env msgs s2 env2 msgs2,
      runToolCalls s env msgs tcs = ExecResult.ok (s2, env2, msgs2) →
      msgs2.take msgs.length = msgs := by
  induction tcs with
  | nil =>
    intro s env msgs s2 env2 msgs2 h
    simp only [runToolCalls, ExecResult.ok.injEq, Prod.mk.injEq] at h
    rw [← h.2.2]
    exact List.take_length msgs
  | cons tc rest ih =>
    intro s env msgs s2 env2 msgs2 h
    simp only [runToolCalls] at h
    cases he : execToolCall s env tc with
    | fault e => rw [he] at h; cases h
    | blocked => rw [he] at h; cases h
    | ok out =>
      rw [he] at h
      obtain ⟨s1, env1, m⟩ := out
      have hrec := ih s1 env1 (msgs ++ [m]) s2 env2 msgs2 h
      exact @take_trans _ msgs (msgs ++ [m]) msgs2 (by simp) hrec

theorem listeners_applyOp (s : BridgeState) (op : BridgeOp) :
    ∃ ext, (applyOp s op).listeners = s.listeners ++ ext := by
  cases op with
  | send a args => exact ⟨[], by simp [applyOp, sendMessage]⟩
  | wait a => exact ⟨[(a, s.promises.length)], rfl⟩
  | getT => exact ⟨[("/live/song/get/tempo", s.promises.length)], rfl⟩
  | setT b => exact ⟨[("/live/song/set/tempo", s.promises.length)], rfl⟩
  | recv p => exact ⟨[], by simp [applyOp, listeners_deliver]⟩

theorem listeners_runOps (ops : List BridgeOp) :
    ∀ s : BridgeState, ∃ ext, (runOps s ops).listeners = s.listeners ++ ext := by
  induction ops with
  | nil => intro s; exact ⟨[], by simp [runOps]⟩
  | cons op ops ih =>
    intro s
    obtain ⟨e1, h1⟩ := listeners_applyOp s op
    obtain ⟨e2, h2⟩ := ih (applyOp s op)
    refine ⟨e1 ++ e2, ?_⟩
    show (runOps (applyOp s op) ops).listeners = _
    rw [h2, h1, List.append_assoc]

/-! ### The claims -/

/-- C9: for every address and argument list, `sendMessage(address, ...args)`
writes exactly one packet, always addressed to the fixed peer `127.0.0.1`
port `11000`; it registers no listener and touches no promise, so nothing
waits for or requires an acknowledgment. -/
theorem C9_send_one_packet_fixed_peer (s : BridgeState) (a : String) (args : List JValue) :
    (sendMessage s a args).sent =
      s.sent ++ [{ address := a, args := args, host := "127.0.0.1", port := 11000 }] ∧
    (sendMessage s a args).listeners = s.listeners ∧
    (sendMessage s a args).promises = s.promises :=
  ⟨rfl, rfl, rfl⟩

/-- C10: every `waitForMessage` call permanently adds one listener for its
address; across any sequence of bridge operations (sends, waits, `getTempo`,
`setTempo`, inbound deliveries) the listener list only grows — the old list
is an initial segment of the new one — and delivery (which settles promises)
removes no listener, so stale listeners from completed calls stay attached. -/
theorem C10_listeners_never_removed (s : BridgeState) (ops : List BridgeOp) (a : String)
    (b : JValue) (p : InPacket) :
    (runOps s ops).listeners.take s.listeners.length = s.listeners ∧
    s.listeners.length ≤ (runOps s ops).listeners.length ∧
    (waitForMessage s a).1.listeners = s.listeners ++ [(a, (waitForMessage s a).2)] ∧
    (getTempo s).1.listeners = s.listeners ++ [("/live/song/get/tempo", s.promises.length)] ∧
    (setTempo s b).1.listeners = s.listeners ++ [("/live/song/set/tempo", s.promises.length)] ∧
    (deliver s p).listeners = s.listeners := by
  obtain ⟨ext, hext⟩ := listeners_runOps ops s
  refine ⟨?_, ?_, rfl, rfl, rfl, rfl⟩
  · rw [hext]; exact List.take_left _ _
  · rw [hext]; simp

/-- C3: the promise returned by `waitForMessage(address)` resolves with the
first packet delivered on that address (over any inbound sequence `ps` it
holds exactly the first match), and once settled its value never changes:
any further deliveries `qs` leave the settled value intact. Requires only
that the listeners already registered point at existing promises, which
holds in every reachable state. -/
theorem C3_first_packet_only (s : BridgeState) (a : String) (ps qs : List InPacket)
    (m : InPacket) (hwf : ∀ l ∈ s.listeners, l.2 < s.promises.length) :
    promiseValue (deliverAll (waitForMessage s a).1 ps) (waitForMessage s a).2 =
      ps.find? (fun p => decide (p.address = a)) ∧
    (promiseValue (deliverAll (waitForMessage s a).1 ps) (waitForMessage s a).2 = some m →
      promiseValue (deliverAll (deliverAll (waitForMessage s a).1 ps) qs)
        (waitForMessage s a).2 = some m) := by
  have hw := Waiting_waitForMessage s a hwf
  exact ⟨promiseValue_deliverAll_find _ a _ ps hw,
    fun h => promiseValue_deliverAll_settled qs _ _ m h⟩

/-- C3 witness: from the fresh bridge, with two packets arriving on the
get-tempo address and one more after settlement, the promise holds the first
packet and keeps it. -/
theorem C3_witness :
    promiseValue (deliverAll (waitForMessage emptyBridge "/live/song/get/tempo").1
        [c3First, c3Second]) (waitForMessage emptyBridge "/live/song/get/tempo").2 =
      [c3First, c3Second].find? (fun p => decide (p.address = "/live/song/get/tempo")) ∧
    promiseValue (deliverAll (deliverAll (waitForMessage emptyBridge
        "/live/song/get/tempo").1 [c3First, c3Second]) [c3Late])
      (waitForMessage emptyBridge "/live/song/get/tempo").2 = some c3First :=
  ⟨(C3_first_packet_only emptyBridge "/live/song/get/tempo" [c3First, c3Second] [c3Late]
      c3First (by simp [emptyBridge])).1,
   (C3_first_packet_only emptyBridge "/live/song/get/tempo" [c3First, c3Second] [c3Late]
      c3First (by simp [emptyBridge])).2 rfl⟩

/-- C4: `waitForMessage(address)` registers exactly one listener; its promise
is settled after a delivery sequence exactly when some packet of it arrived
on the address; and with no timeout, `getTempo`/`setTempo` block forever
(their await never returns) exactly when no packet arrives on their
respective reply address. -/
theorem C4_one_listener_blocks_without_reply (s : BridgeState) (a : String) (b : JValue)
    (ps : List InPacket) (hwf : ∀ l ∈ s.listeners, l.2 < s.promises.length) :
    (waitForMessage s a).1.listeners = s.listeners ++ [(a, (waitForMessage s a).2)] ∧
    (promiseValue (deliverAll (waitForMessage s a).1 ps) (waitForMessage s a).2).isSome =
      ps.any (fun p => decide (p.address = a)) ∧
    (runUntilSettled (getTempo s).1 (getTempo s).2 ps).isNone =
      ps.all (fun p => !decide (p.address = "/live/song/get/tempo")) ∧
    (runUntilSettled (setTempo s b).1 (setTempo s b).2 ps).isNone =
      ps.all (fun p => !decide (p.address = "/live/song/set/tempo")) := by
  have hw := Waiting_waitForMessage s a hwf
  refine ⟨rfl, ?_, ?_, ?_⟩
  · refine bool_eq_of_iff ?_
    rw [promiseValue_deliverAll_find _ a _ ps hw]
    simp [List.find?_isSome, List.any_eq_true]
  · refine bool_eq_of_iff ?_
    simp only [Option.isNone_iff_eq_none, List.all_eq_true]
    rw [runUntilSettled_none_iff _ _ _ ps (Waiting_getTempo s hwf)]
    simp
  · refine bool_eq_of_iff ?_
    simp only [Option.isNone_iff_eq_none, List.all_eq_true]
    rw [runUntilSettled_none_iff _ _ _ ps (Waiting_setTempo s b hwf)]
    simp

/-- C4 witness: from the fresh bridge, with only a packet on an unrelated
address arriving, the listener equation holds, the promise stays unsettled,
and both tempo operations block forever. -/
theorem C4_witness :
    (waitForMessage emptyBridge "/live/song/get/tempo").1.listeners =
      emptyBridge.listeners ++
        [("/live/song/get/tempo", (waitForMessage emptyBridge "/live/song/get/tempo").2)] ∧
    (promiseValue (deliverAll (waitForMessage emptyBridge "/live/song/get/tempo").1
        [c4Other]) (waitForMessage emptyBridge "/live/song/get/tempo").2).isSome =
      [c4Other].any (fun p => decide (p.address = "/live/song/get/tempo")) ∧
    (runUntilSettled (getTempo emptyBridge).1 (getTempo emptyBridge).2 [c4Other]).isNone =
      [c4Other].all (fun p => !decide (p.address = "/live/song/get/tempo")) ∧
    (runUntilSettled (setTempo emptyBridge (JValue.num 128)).1
        (setTempo emptyBridge (JValue.num 128)).2 [c4Other]).isNone =
      [c4Other].all (fun p => !decide (p.address = "/live/song/set/tempo")) :=
  C4_one_listener_blocks_without_reply emptyBridge "/live/song/get/tempo" (JValue.num 128)
    [c4Other] (by simp [emptyBridge])

/-- C1 counterexample: the claim says that for a response without tool calls
the dispatcher prints the response content verbatim. On the concrete
no-tool-call run the dispatcher's console output is empty — nothing is
printed at all (there is no else branch in `main`), so in particular the
output is not the response content. -/
theorem C1_counterexample :
    main c1Env emptyBridge =
      ExecResult.ok { messages := initialMessages, output := [], bridge := emptyBridge } ∧
    ([] : List (Option String)) ≠ [some "The tempo is 120 BPM."] :=
  ⟨rfl, by simp⟩

/-- C1 (amended): for every completion response whose message carries no
`tool_calls` field, the dispatcher invokes neither `getTempo` nor `setTempo`
(the bridge state is returned untouched: nothing sent, no listener added)
and produces no console output — it does not print the response content,
and the transcript stays at its initial two records. -/
theorem C1_no_tool_calls_silent (e : Env) (s0 : BridgeState) (k : String)
    (hk : e.apiKey = some k) (hk2 : k ≠ "")
    (h : Option.bind e.firstResponse ChatMessage.tool_calls = none) :
    main e s0 = ExecResult.ok { messages := initialMessages, output := [], bridge := s0 } := by
  cases he : e.firstResponse with
  | none => simp [main, chatCompletionsCreate, hk, hk2, he]
  | some rm =>
    have htc : rm.tool_calls = none := by
      rw [he] at h
      exact h
    simp [main, chatCompletionsCreate, hk, hk2, he, htc]

/-- C1 witness: the amended theorem at the concrete no-tool-call run. -/
theorem C1_witness :
    main c1Env emptyBridge =
      ExecResult.ok { messages := initialMessages, output := [], bridge := emptyBridge } :=
  C1_no_tool_calls_silent c1Env emptyBridge "sk-test" rfl (by decide) rfl

/-- C2 (code bug): dispatching `set_song_tempo` with argument payload
`bpm: 120` sends one packet to the set-tempo address at the fixed peer, but
the packet carries the parsed arguments *object* — the dispatcher passes the
whole `functionArgs` object to `setTempo`, whose `bmp` parameter is forwarded
directly — not the number `120` that the tool manifest (`bpm`, type
`number`) and the claim intend. The third conjunct records the manifest
declaration. -/
theorem C2_sends_object_not_number :
    sentAfterTool (execToolCall emptyBridge [c2Reply] c2Call) =
      [{ address := "/live/song/set/tempo",
         args := [JValue.obj [("bpm", JValue.num 120)]],
         host := "127.0.0.1", port := 11000 }] ∧
    JValue.obj [("bpm", JValue.num 120)] ≠ JValue.num 120 ∧
    toolManifest.map ToolSpec.params = [[], [("bpm", "number")]] :=
  ⟨rfl, fun h => JValue.noConfusion h, rfl⟩

/-- C5: a tool call whose function name is not `get_song_tempo` or
`set_song_tempo`, or whose string-encoded arguments do not parse as JSON,
makes the dispatcher iteration raise an unhandled runtime fault — a
`SyntaxError` from `JSON.parse` or a `TypeError` from calling `undefined`
(`JSON.parse` is evaluated first, so it wins when both fail) — and no local
function is invoked: the iteration never reaches the call, returning a fault
instead of a new bridge state. -/
theorem C5_unknown_or_malformed_faults (s : BridgeState) (env : List InPacket)
    (tc : ToolCall)
    (h : (tc.function.name ≠ "get_song_tempo" ∧ tc.function.name ≠ "set_song_tempo") ∨
      jsonParse tc.function.arguments = none) :
    execToolCall s env tc =
      ExecResult.fault
        (match jsonParse tc.function.arguments with
         | none => JsError.jsonParseError
         | some _ => JsError.notAFunction) := by
  cases hj : jsonParse tc.function.arguments with
  | none => simp [execToolCall, hj]
  | some fa =>
    rcases h with ⟨h1, h2⟩ | h
    · simp [execToolCall, hj, availableFunctions_not_found _ h1 h2]
    · rw [h] at hj
      cases hj

/-- C5 witness: the unknown tool name `frobnicate` with well-formed arguments
faults with the `TypeError` of calling `undefined`. -/
theorem C5_witness :
    execToolCall emptyBridge [] c5Call = ExecResult.fault JsError.notAFunction :=
  C5_unknown_or_malformed_faults emptyBridge [] c5Call (Or.inl ⟨by decide, by decide⟩)

/-- C6: whenever the dispatcher executes a tool call — its name resolves to
local function `f`, its arguments parse to `fa`, and the awaited run of `f`
returns the reply `resp` — the record it appends to the transcript is exactly
role `tool`, `name` the call's function name, `tool_call_id` the call's
correlation id, and `content` the string form of the function's result. -/
theorem C6_tool_record_correlated (s : BridgeState) (env : List InPacket) (tc : ToolCall)
    (fa : JValue) (f : BridgeState → JValue → BridgeState × Nat)
    (s2 : BridgeState) (env2 : List InPacket) (resp : InPacket)
    (hj : jsonParse tc.function.arguments = some fa)
    (hf : availableFunctions tc.function.name = some f)
    (hr : runUntilSettled (f s fa).1 (f s fa).2 env = some (s2, env2, resp)) :
    execToolCall s env tc =
      ExecResult.ok (s2, env2,
        { role := Role.tool, content := some (msgToString resp), tool_calls := none,
          name := some tc.function.name, tool_call_id := some tc.id }) := by
  simp [execToolCall, hj, hf, hr]

/-- C6 witness: the concrete `get_song_tempo` call with correlation id
`call_abc` produces exactly the correlated tool record. -/
theorem C6_witness :
    execToolCall emptyBridge [c6Reply] c6Call =
      ExecResult.ok (c6Bridge, [],
        { role := Role.tool, content := some (msgToString c6Reply), tool_calls := none,
          name := some c6Call.function.name, tool_call_id := some c6Call.id }) :=
  C6_tool_record_correlated emptyBridge [c6Reply] c6Call (JValue.obj [])
    (fun s _ => getTempo s) c6Bridge [] c6Reply rfl rfl rfl

/-- C7: the transcript is mutated only by appending records at the end: every
completed dispatcher loop leaves its starting transcript as the unchanged
initial segment of the result, and every completed run of `main` leaves the
initial transcript as the unchanged initial segment of the final one — no
record is modified, reordered or removed. -/
theorem C7_transcript_append_only :
    (∀ (s : BridgeState) (env : List InPacket) (msgs : List ChatMessage)
       (tcs : List ToolCall) (s2 : BridgeState) (env2 : List InPacket)
       (msgs2 : List ChatMessage),
      runToolCalls s env msgs tcs = ExecResult.ok (s2, env2, msgs2) →
      msgs2.take msgs.length = msgs) ∧
    (∀ (e : Env) (s0 : BridgeState) (r : MainResult),
      main e s0 = ExecResult.ok r →
      r.messages.take initialMessages.length = initialMessages) := by
  refine ⟨fun s env msgs tcs s2 env2 msgs2 h => runToolCalls_take tcs s env msgs s2 env2 msgs2 h, ?_⟩
  intro e s0 r h
  unfold main at h
  split at h
  · exact ExecResult.noConfusion h
  · exact ExecResult.noConfusion h
  · split at h
    · injection h with h2
      rw [← h2]
      exact List.take_length _
    · split at h
      · injection h with h2
        rw [← h2]
        exact List.take_length _
      · split at h
        · exact ExecResult.noConfusion h
        · exact ExecResult.noConfusion h
        · split at h
          · exact ExecResult.noConfusion h
          · exact ExecResult.noConfusion h
          · rename_i x3 rmo rm hc1 x2 tcs htc x1 s1 env1 msgs2 hrun x0 sr hc2
            injection h with h2
            rw [← h2]
            show msgs2.take initialMessages.length = initialMessages
            have hstep := runToolCalls_take tcs s0 e.inbound (initialMessages ++ [rm])
              s1 env1 msgs2 hrun
            exact @take_trans _ initialMessages (initialMessages ++ [rm]) msgs2
              (by simp) hstep

/-- C7 witness: on the concrete tool-call run, the initial transcript is the
unchanged initial segment of the final transcript. -/
theorem C7_witness :
    c7Result.messages.take initialMessages.length = initialMessages :=
  C7_transcript_append_only.2 c7Env emptyBridge c7Result rfl

/-- C8: if the `OPENAI_API_KEY` environment variable is absent or empty, the
run fails with the missing-credential error at the completion request rather
than silently succeeding (the credential check itself lives in the
third-party `openai` client and is modelled from the spec). -/
theorem C8_missing_key_fails (e : Env) (s0 : BridgeState)
    (h : e.apiKey = none ∨ e.apiKey = some "") :
    main e s0 = ExecResult.fault JsError.missingCredential := by
  rcases h with h | h <;> simp [main, chatCompletionsCreate, h]

/-- C8 witness: the concrete environment with no API key fails with the
missing-credential error. -/
theorem C8_witness :
    main c8Env emptyBridge = ExecResult.fault JsError.missingCredential :=
  C8_missing_key_fails c8Env emptyBridge (Or.inl rfl)

end Ableton
